import Mathlib

/-!
Verification of the test-vector generation and comparison oracle of the
fp32-div-sqrt-combinational testbenches (`tb_fp32_div_comb.cpp` and
`tb_fp32_sqrt_comb.cpp`).

The unit under test (Verilator model) and the SoftFloat reference library are
external to the repository: their outputs (result bit pattern and packed
exception flags) enter the embedding as plain arguments.  Everything the
testbenches themselves compute — ULP distance, value/flag verdicts, region
tables, weighted region selection, operand generation, the systematic sweeps,
and the fail-fast control flow — is embedded below as executable definitions,
translated directly from the C++ source.

All 32-bit quantities are modelled as `Nat` with bounds `< 2^32` stated where
overflow could matter; bitwise C operators `&`, `^`, `>>` become `&&&`, `^^^`,
`>>>` on `Nat`.
-/

set_option linter.unusedVariables false

namespace FP32TB

/-- `std::isnan` applied to the float reinterpretation of a 32-bit pattern:
exponent field (bits 30..23) all ones and fraction field (bits 22..0)
nonzero. -/
def isNaN32 (x : Nat) : Bool :=
  ((x >>> 23) &&& 0xFF) == 0xFF && (x &&& 0x7FFFFF) != 0

/-- Packing of the five RTL exception outputs, from both testbenches:
`(exc_invalid << 4) | (exc_divzero << 3) | (exc_overflow << 2) |
(exc_underflow << 1) | exc_inexact`. -/
def pack_flags (invalid divzero overflow underflow inexact : Bool) : Nat :=
  (invalid.toNat <<< 4) ||| (divzero.toNat <<< 3) ||| (overflow.toNat <<< 2) |||
    (underflow.toNat <<< 1) ||| inexact.toNat

/-- ULP computation of `compare_with_softfloat` in `tb_fp32_div_comb.cpp`
(lines 160-179): `ulp_diff` stays `0` in the NaN-NaN case, is `0` for
bit-identical results and for the pair of oppositely signed zeros, is the sum of magnitudes when
the sign bits differ, and otherwise is the unsigned absolute difference. -/
def div_ulp_diff (rtl_u math_v : Nat) : Nat :=
  if isNaN32 rtl_u && isNaN32 math_v then 0
  else if rtl_u = math_v then 0
  else if (rtl_u = 0x00000000 ∧ math_v = 0x80000000) ∨
          (rtl_u = 0x80000000 ∧ math_v = 0x00000000) then 0
  else if (rtl_u ^^^ math_v) &&& 0x80000000 ≠ 0 then
    (rtl_u &&& 0x7FFFFFFF) + (math_v &&& 0x7FFFFFFF)
  else if rtl_u > math_v then rtl_u - math_v else math_v - rtl_u

/-- `result_match` of `compare_with_softfloat` (line 182). -/
def div_result_match (rtl_u math_v : Nat) : Bool :=
  (isNaN32 rtl_u && isNaN32 math_v) || (div_ulp_diff rtl_u math_v == 0)

/-- `overall_pass` of `compare_with_softfloat` (lines 183-184):
`result_match && flags_match`, with `flags_match = (rtl_flags == math_flags)`. -/
def div_overall_pass (rtl_u math_v rtl_flags math_flags : Nat) : Bool :=
  div_result_match rtl_u math_v && (rtl_flags == math_flags)

/-- ULP computation of the sqrt testbench (corner phase lines 224-233 and
random phase lines 357-366, identical code): no NaN guard and no explicit
signed-zero case; bit-identical gives `0`, differing sign bits give the sum of
magnitudes, same sign gives the unsigned absolute difference. -/
def sqrt_ulp_diff (out_u math_u : Nat) : Nat :=
  if out_u = math_u then 0
  else if (out_u ^^^ math_u) &&& 0x80000000 ≠ 0 then
    (out_u &&& 0x7FFFFFFF) + (math_u &&& 0x7FFFFFFF)
  else if out_u > math_u then out_u - math_u else math_u - out_u

/-- `pass` of the sqrt random phase (lines 374-376): NaN-NaN or zero ULP. -/
def sqrt_value_pass (out_u math_u : Nat) : Bool :=
  (isNaN32 math_u && isNaN32 out_u) || (sqrt_ulp_diff out_u math_u == 0)

/-- `overall_pass` of the sqrt random phase (lines 371-377):
`pass && flag_pass` with `flag_pass = (dut_flags == math_flags)`. -/
def sqrt_overall_pass (out_u math_u dut_flags math_flags : Nat) : Bool :=
  sqrt_value_pass out_u math_u && (dut_flags == math_flags)

/-- `pass_cc` of the sqrt corner-case phase (lines 238-239).  The phase
computes `dut_flags_cc` and `math_flags_cc` (lines 221, 235-237) but the
verdict uses only the value comparison; the two flag arguments are carried
here to reflect that they are available yet unused in `pass_cc`. -/
def sqrt_corner_pass (out_u math_u dut_flags_cc math_flags_cc : Nat) : Bool :=
  (isNaN32 math_u && isNaN32 out_u) || (sqrt_ulp_diff out_u math_u == 0)

/-- Failure report condition of the sqrt systematic subnormal sweep
(line 271): `dut_flags != math_flags`.  The result bits are not examined by
this check. -/
def sqrt_sys_fail_report (dut_flags math_flags : Nat) : Bool :=
  dut_flags != math_flags

/-- Control flow of `main` in `tb_fp32_div_comb.cpp` over the stream of
per-vector `overall_pass` outcomes: every phase executes
`if (!compare_with_softfloat(...)) return 1;` (lines 355-367, 389-391,
400-402, 460-463), and the final statement is `return 0` (line 485). -/
def run_fail_fast : List Bool → Nat
  | [] => 0
  | p :: rest => if p then run_fail_fast rest else 1

/-- Control flow of `main` in `tb_fp32_sqrt_comb.cpp` over the stream of
per-vector outcomes: no phase body contains a `return` or abort — failures
are only printed (lines 241-248, 271-278, 380-394) — and the single exit
point is `return 0` (line 416). -/
def run_log_only : List Bool → Nat
  | [] => 0
  | _ :: rest => run_log_only rest

/-- The `TestRegion` struct of both testbenches.  The C++ field `end` is a
reserved word in Lean and is embedded as `stop`. -/
structure TestRegion where
  start : Nat
  stop : Nat
  name : String
  weight : Nat

deriving instance DecidableEq, Repr, Inhabited for TestRegion

/-- The `regions[]` table of `tb_fp32_div_comb.cpp` (lines 112-130), with the
weights from `TestConfig` (lines 66-72). -/
def div_regions : List TestRegion :=
  [⟨0x00000000, 0x00800000, "subnormals", 10⟩,
   ⟨0x00800000, 0x34000000, "small_normals", 8⟩,
   ⟨0x34000000, 0x3f000000, "medium_normals", 5⟩,
   ⟨0x3f000000, 0x40800000, "near_one", 15⟩,
   ⟨0x40800000, 0x7f000000, "large_normals", 8⟩,
   ⟨0x7f000000, 0x7f800000, "near_overflow", 10⟩,
   ⟨0x7f800000, 0x7fffffff, "special_values", 12⟩,
   ⟨0x80000000, 0x80800000, "neg_subnormals", 10⟩,
   ⟨0x80800000, 0xb4000000, "neg_small_normals", 8⟩,
   ⟨0xb4000000, 0xbf000000, "neg_medium_normals", 5⟩,
   ⟨0xbf000000, 0xc0800000, "neg_near_one", 15⟩,
   ⟨0xc0800000, 0xff000000, "neg_large_normals", 8⟩,
   ⟨0xff000000, 0xff800000, "neg_near_overflow", 10⟩,
   ⟨0xff800000, 0xffffffff, "neg_special_values", 12⟩]

/-- The `regions[]` table of `tb_fp32_sqrt_comb.cpp` (lines 44-55). -/
def sqrt_regions : List TestRegion :=
  [⟨0x00000000, 0x00800000, "subnormals", 15⟩,
   ⟨0x00800000, 0x34000000, "small_normals", 10⟩,
   ⟨0x34000000, 0x3f000000, "medium_normals", 8⟩,
   ⟨0x3f000000, 0x40800000, "near_one", 20⟩,
   ⟨0x40800000, 0x7f000000, "large_normals", 12⟩,
   ⟨0x7f000000, 0x7f800000, "near_overflow", 10⟩,
   ⟨0x7f800000, 0x7fffffff, "special_values", 15⟩,
   ⟨0x80000000, 0x80000000, "neg_zero", 5⟩,
   ⟨0x80000001, 0xffffffff, "negative_vals", 5⟩]

/-- `total_weight` accumulation of both testbenches
(`for (auto& region : regions) total_weight += region.weight;`). -/
def total_weight (rs : List TestRegion) : Nat :=
  rs.foldl (fun acc r => acc + r.weight) 0

/-- The region-selection walk of both stratified samplers (div lines 420-430,
sqrt lines 302-312): starting from the running total `current`, add each
region's weight in table order and select the first region for which the draw
is below the running total; `none` when the list is exhausted. -/
def select_region : List TestRegion → Nat → Nat → Option TestRegion
  | [], _, _ => none
  | r :: rs, region_select, current =>
    if region_select < current + r.weight then some r
    else select_region rs region_select (current + r.weight)

/-- Sum of the weights of a region list (reference formulation of
`total_weight` used by the proofs). -/
def sum_weights : List TestRegion → Nat
  | [] => 0
  | r :: rs => r.weight + sum_weights rs

/-- Cumulative weight of the first `i` regions of a list
(`w_1 + ... + w_i` in the spec's notation). -/
def cum_weight : List TestRegion → Nat → Nat
  | _, 0 => 0
  | [], _ + 1 => 0
  | r :: rs, i + 1 => r.weight + cum_weight rs i

/-- The fallback after the sqrt walk (line 314):
`if (!selected_region) selected_region = &regions[0];`. -/
def sqrt_selected_region (region_select : Nat) : TestRegion :=
  match select_region sqrt_regions region_select 0 with
  | some r => r
  | none => sqrt_regions.headI

/-- First-operand generation of the divider's stratified phase
(lines 433-439): a single region value when the region is degenerate,
otherwise `start + (g % (end - start))` where `g` is the 32-bit uniform
draw. -/
def div_gen_a (r : TestRegion) (g : Nat) : Nat :=
  if r.start = r.stop then r.start
  else r.start + g % (r.stop - r.start)

/-- Second-operand generation of the divider's stratified phase in the
same-region case (lines 442-445): `start + (g % (range + 1))` with
`range = end - start`. -/
def div_gen_b_same_region (r : TestRegion) (g : Nat) : Nat :=
  r.start + g % ((r.stop - r.start) + 1)

/-- The five fixed divisors of the divider's systematic subnormal sweep
(line 387). -/
def div_divisors : List Nat :=
  [0x3f800000, 0x40000000, 0x3f000000, 0x41200000, 0x3e800000]

/-- The subnormal sweep loop of both testbenches (div line 386, sqrt line
257): `for (uint32_t subnormal = 0x00000001; subnormal <= 0x007fffff;
subnormal += 0x00001111)`.  The first argument is fuel bounding the number of
iterations; `0x00800000` exceeds the number of candidate values, so the loop
always terminates by the bound check exactly as in the source. -/
def subnorm_sweep_aux : Nat → Nat → List Nat
  | 0, _ => []
  | n + 1, subnormal =>
    if subnormal ≤ 0x007fffff then
      subnormal :: subnorm_sweep_aux n (subnormal + 0x00001111)
    else []

/-- The operand sequence of the sqrt testbench's systematic subnormal sweep. -/
def sqrt_subnorm_sweep : List Nat := subnorm_sweep_aux 0x00800000 0x00000001

/-- The vector sequence `(dividend, divisor)` of the divider's systematic
subnormal sweep (lines 386-394): for each swept dividend, the inner loop runs
over the five fixed divisors. -/
def div_subnorm_vectors_aux : Nat → Nat → List (Nat × Nat)
  | 0, _ => []
  | n + 1, subnormal =>
    if subnormal ≤ 0x007fffff then
      (div_divisors.map fun d => (subnormal, d)) ++
        div_subnorm_vectors_aux n (subnormal + 0x00001111)
    else []

/-- The vector sequence of the divider's systematic subnormal sweep. -/
def div_subnorm_vectors : List (Nat × Nat) :=
  div_subnorm_vectors_aux 0x00800000 0x00000001

/-! ### Helper lemmas -/

lemma land_top_bit_ne_zero (z : Nat) :
    z &&& 0x80000000 ≠ 0 ↔ z.testBit 31 = true := by
  have h : (0x80000000 : Nat) = 2 ^ 31 := by norm_num
  rw [h, Nat.and_two_pow]
  cases hz : z.testBit 31 <;> simp

lemma xor_sign_bits (x y : Nat) :
    (x ^^^ y) &&& 0x80000000 ≠ 0 ↔ x.testBit 31 ≠ y.testBit 31 := by
  rw [land_top_bit_ne_zero, Nat.testBit_xor]
  cases hx : x.testBit 31 <;> cases hy : y.testBit 31 <;> simp

lemma run_fail_fast_eq_zero_iff (ps : List Bool) :
    run_fail_fast ps = 0 ↔ ∀ p ∈ ps, p = true := by
  induction ps with
  | nil => simp [run_fail_fast]
  | cons p rest ih =>
      cases p <;> simp [run_fail_fast, ih]

lemma run_log_only_eq_zero (ps : List Bool) : run_log_only ps = 0 := by
  induction ps with
  | nil => rfl
  | cons p rest ih => simpa [run_log_only] using ih

lemma run_fail_fast_append_false (pre post : List Bool)
    (hpre : ∀ p ∈ pre, p = true) :
    run_fail_fast (pre ++ false :: post) = 1 := by
  induction pre with
  | nil => simp [run_fail_fast]
  | cons p rest ih =>
      have hp : p = true := hpre p (List.mem_cons_self p rest)
      subst hp
      simpa [run_fail_fast] using ih fun q hq => hpre q (List.mem_cons_of_mem _ hq)

lemma select_region_go (rs : List TestRegion) : ∀ current d : Nat,
    current ≤ d → d < current + sum_weights rs →
    ∃ i, ∃ h : i < rs.length,
      select_region rs d current = some (rs.get ⟨i, h⟩) ∧
      current + cum_weight rs i ≤ d ∧ d < current + cum_weight rs (i + 1) := by
  induction rs with
  | nil =>
      intro current d h1 h2
      exfalso
      have : sum_weights [] = 0 := rfl
      omega
  | cons r rs ih =>
      intro current d h1 h2
      by_cases hc : d < current + r.weight
      · refine ⟨0, Nat.succ_pos _, ?_, ?_, ?_⟩
        · simp [select_region, hc]
        · have : cum_weight (r :: rs) 0 = 0 := rfl
          omega
        · have : cum_weight (r :: rs) (0 + 1) = r.weight + cum_weight rs 0 := rfl
          have h0 : cum_weight rs 0 = 0 := by cases rs <;> rfl
          omega
      · have h1' : current + r.weight ≤ d := Nat.le_of_not_lt hc
        have hsum : sum_weights (r :: rs) = r.weight + sum_weights rs := rfl
        obtain ⟨i, hi, hsel, hlo, hhi⟩ := ih (current + r.weight) d h1' (by omega)
        refine ⟨i + 1, Nat.succ_lt_succ hi, ?_, ?_, ?_⟩
        · simpa [select_region, hc] using hsel
        · have : cum_weight (r :: rs) (i + 1) = r.weight + cum_weight rs i := rfl
          omega
        · have : cum_weight (r :: rs) (i + 1 + 1) = r.weight + cum_weight rs (i + 1) := rfl
          omega

lemma cum_weight_mono (rs : List TestRegion) :
    ∀ i j : Nat, i ≤ j → cum_weight rs i ≤ cum_weight rs j := by
  induction rs with
  | nil =>
      intro i j _
      have hi : cum_weight [] i = 0 := by cases i <;> rfl
      have hj : cum_weight [] j = 0 := by cases j <;> rfl
      omega
  | cons r rs ih =>
      intro i j hij
      cases i with
      | zero =>
          have : cum_weight (r :: rs) 0 = 0 := rfl
          omega
      | succ i =>
          cases j with
          | zero => omega
          | succ j =>
              have h1 : cum_weight (r :: rs) (i + 1) = r.weight + cum_weight rs i := rfl
              have h2 : cum_weight (r :: rs) (j + 1) = r.weight + cum_weight rs j := rfl
              have := ih i j (by omega)
              omega

lemma select_region_first (rs : List TestRegion) (d : Nat)
    (h : d < sum_weights rs) :
    ∃ i, ∃ hi : i < rs.length,
      select_region rs d 0 = some (rs.get ⟨i, hi⟩) ∧
      cum_weight rs i ≤ d ∧ d < cum_weight rs (i + 1) ∧
      (∀ j, d < cum_weight rs (j + 1) → i ≤ j) ∧
      (∀ j, cum_weight rs j ≤ d → d < cum_weight rs (j + 1) → j = i) := by
  obtain ⟨i, hi, hsel, hlo, hhi⟩ :=
    select_region_go rs 0 d (Nat.zero_le d) (by omega)
  refine ⟨i, hi, hsel, by omega, by omega, ?_, ?_⟩
  · intro j hj
    by_contra hij
    push_neg at hij
    have := cum_weight_mono rs (j + 1) i (by omega)
    omega
  · intro j hj1 hj2
    rcases Nat.lt_trichotomy j i with hlt | heq | hgt
    · have := cum_weight_mono rs (j + 1) i (by omega)
      omega
    · exact heq
    · have := cum_weight_mono rs (i + 1) j (by omega)
      omega

lemma subnorm_sweep_aux_eq_prog : ∀ (m n x : Nat), m ≤ n →
    0x007fffff < x + m * 0x00001111 →
    (∀ j, j < m → x + j * 0x00001111 ≤ 0x007fffff) →
    subnorm_sweep_aux n x = (List.range m).map (fun k => x + k * 0x00001111) := by
  intro m
  induction m with
  | zero =>
      intro n x _ hover _
      have hx : ¬ x ≤ 0x007fffff := by omega
      cases n with
      | zero => simp [subnorm_sweep_aux]
      | succ n => simp [subnorm_sweep_aux, hx]
  | succ m ih =>
      intro n x hn hover hin
      have hx : x ≤ 0x007fffff := by
        have := hin 0 (Nat.succ_pos m)
        omega
      cases n with
      | zero => omega
      | succ n =>
          have hover' : 0x007fffff < (x + 0x00001111) + m * 0x00001111 := by
            have : x + (m + 1) * 0x00001111 = (x + 0x00001111) + m * 0x00001111 := by
              ring
            omega
          have hin' : ∀ j, j < m → (x + 0x00001111) + j * 0x00001111 ≤ 0x007fffff := by
            intro j hj
            have h1 := hin (j + 1) (by omega)
            have h2 : x + (j + 1) * 0x00001111 = (x + 0x00001111) + j * 0x00001111 := by
              ring
            omega
          have hrec := ih n (x + 0x00001111) (by omega) hover' hin'
          have hstep : subnorm_sweep_aux (n + 1) x
              = x :: subnorm_sweep_aux n (x + 0x00001111) := by
            rw [subnorm_sweep_aux, if_pos hx]
          have hfun : ((fun k => x + k * 0x00001111) ∘ Nat.succ)
              = fun k => (x + 0x00001111) + k * 0x00001111 := by
            funext k
            simp only [Function.comp_apply, Nat.succ_eq_add_one]
            ring
          rw [hstep, hrec, List.range_succ_eq_map, List.map_cons, List.map_map, hfun]
          simp

lemma div_subnorm_vectors_aux_eq : ∀ n x,
    div_subnorm_vectors_aux n x
      = (subnorm_sweep_aux n x).flatMap fun s => div_divisors.map fun d => (s, d) := by
  intro n
  induction n with
  | zero => intro x; rfl
  | succ n ih =>
      intro x
      by_cases hx : x ≤ 0x007fffff
      · simp [div_subnorm_vectors_aux, subnorm_sweep_aux, hx, ih]
      · simp [div_subnorm_vectors_aux, subnorm_sweep_aux, hx]

lemma pairwise_lt_prog (x s m : Nat) (hs : 0 < s) :
    List.Pairwise (· < ·) ((List.range m).map fun k => x + k * s) := by
  rw [List.pairwise_map]
  refine (List.pairwise_lt_range m).imp ?_
  intro a b hab
  have : a * s < b * s := by
    have h1 : a + 1 ≤ b := hab
    calc a * s < a * s + s := by omega
    _ = (a + 1) * s := by ring
    _ ≤ b * s := Nat.mul_le_mul_right s h1
  omega

/-! ### Claims -/

/-- Claim C4: for RTL and reference result bit patterns that are not
bit-identical, not both NaN, and not the signed-zero pair, both testbenches'
ULP computation yields the sum of magnitudes
`(rtl &&& 0x7FFFFFFF) + (ref &&& 0x7FFFFFFF)` when the sign bits differ, and
the absolute difference of the bit patterns as unsigned integers when the
sign bits agree. -/
theorem ulp_diff_sign_branches (rtl ref : Nat)
    (h1 : rtl < 2 ^ 32) (h2 : ref < 2 ^ 32) (hne : rtl ≠ ref)
    (hnan : ¬(isNaN32 rtl = true ∧ isNaN32 ref = true))
    (hz : ¬((rtl = 0x00000000 ∧ ref = 0x80000000) ∨
            (rtl = 0x80000000 ∧ ref = 0x00000000))) :
    (rtl.testBit 31 ≠ ref.testBit 31 →
      div_ulp_diff rtl ref = (rtl &&& 0x7FFFFFFF) + (ref &&& 0x7FFFFFFF) ∧
      sqrt_ulp_diff rtl ref = (rtl &&& 0x7FFFFFFF) + (ref &&& 0x7FFFFFFF)) ∧
    (rtl.testBit 31 = ref.testBit 31 →
      div_ulp_diff rtl ref = ((rtl : ℤ) - (ref : ℤ)).natAbs ∧
      sqrt_ulp_diff rtl ref = ((rtl : ℤ) - (ref : ℤ)).natAbs) := by
  have hnanb : ¬((isNaN32 rtl && isNaN32 ref) = true) := by
    rw [Bool.and_eq_true]
    exact hnan
  constructor
  · intro hs
    have hcond : (rtl ^^^ ref) &&& 0x80000000 ≠ 0 := (xor_sign_bits rtl ref).mpr hs
    constructor
    · rw [div_ulp_diff, if_neg hnanb, if_neg hne, if_neg hz, if_pos hcond]
    · rw [sqrt_ulp_diff, if_neg hne, if_pos hcond]
  · intro hs
    have hcond : ¬((rtl ^^^ ref) &&& 0x80000000 ≠ 0) := by
      rw [xor_sign_bits]
      simp [hs]
    constructor
    · rw [div_ulp_diff, if_neg hnanb, if_neg hne, if_neg hz, if_neg hcond]
      by_cases hgt : rtl > ref
      · rw [if_pos hgt]
        omega
      · rw [if_neg hgt]
        omega
    · rw [sqrt_ulp_diff, if_neg hne, if_neg hcond]
      by_cases hgt : rtl > ref
      · rw [if_pos hgt]
        omega
      · rw [if_neg hgt]
        omega

/-- Witness for C4 at `rtl = 0x3f800000` (1.0), `ref = 0xbf800000` (-1.0). -/
theorem ulp_diff_sign_branches_witness :
    (0x3f800000 : Nat) < 2 ^ 32 ∧ (0xbf800000 : Nat) < 2 ^ 32 ∧
    (0x3f800000 : Nat) ≠ 0xbf800000 ∧
    ¬(isNaN32 0x3f800000 = true ∧ isNaN32 0xbf800000 = true) ∧
    ¬(((0x3f800000 : Nat) = 0x00000000 ∧ (0xbf800000 : Nat) = 0x80000000) ∨
      ((0x3f800000 : Nat) = 0x80000000 ∧ (0xbf800000 : Nat) = 0x00000000)) ∧
    ((Nat.testBit 0x3f800000 31 ≠ Nat.testBit 0xbf800000 31 →
      div_ulp_diff 0x3f800000 0xbf800000
        = (0x3f800000 &&& 0x7FFFFFFF) + (0xbf800000 &&& 0x7FFFFFFF) ∧
      sqrt_ulp_diff 0x3f800000 0xbf800000
        = (0x3f800000 &&& 0x7FFFFFFF) + (0xbf800000 &&& 0x7FFFFFFF)) ∧
    (Nat.testBit 0x3f800000 31 = Nat.testBit 0xbf800000 31 →
      div_ulp_diff 0x3f800000 0xbf800000
        = ((0x3f800000 : ℤ) - (0xbf800000 : ℤ)).natAbs ∧
      sqrt_ulp_diff 0x3f800000 0xbf800000
        = ((0x3f800000 : ℤ) - (0xbf800000 : ℤ)).natAbs)) :=
  ⟨by decide, by decide, by decide, by decide, by decide,
   ulp_diff_sign_branches 0x3f800000 0xbf800000 (by decide) (by decide)
     (by decide) (by decide) (by decide)⟩

/-- Claim C5: when one result is `0x00000000` and the other `0x80000000`, both
testbenches give `ulp_diff = 0` and a passing value comparison, while the flag
comparison is unaffected: the overall verdict still equals exact flag
equality. -/
theorem signed_zero_value_equiv (rtl_flags math_flags : Nat) :
    div_ulp_diff 0x00000000 0x80000000 = 0 ∧
    div_ulp_diff 0x80000000 0x00000000 = 0 ∧
    sqrt_ulp_diff 0x00000000 0x80000000 = 0 ∧
    sqrt_ulp_diff 0x80000000 0x00000000 = 0 ∧
    div_result_match 0x00000000 0x80000000 = true ∧
    div_result_match 0x80000000 0x00000000 = true ∧
    sqrt_value_pass 0x00000000 0x80000000 = true ∧
    sqrt_value_pass 0x80000000 0x00000000 = true ∧
    div_overall_pass 0x00000000 0x80000000 rtl_flags math_flags
      = (rtl_flags == math_flags) ∧
    div_overall_pass 0x80000000 0x00000000 rtl_flags math_flags
      = (rtl_flags == math_flags) ∧
    sqrt_overall_pass 0x00000000 0x80000000 rtl_flags math_flags
      = (rtl_flags == math_flags) ∧
    sqrt_overall_pass 0x80000000 0x00000000 rtl_flags math_flags
      = (rtl_flags == math_flags) := by
  have d1 : div_result_match 0x00000000 0x80000000 = true := by decide
  have d2 : div_result_match 0x80000000 0x00000000 = true := by decide
  have s1 : sqrt_value_pass 0x00000000 0x80000000 = true := by decide
  have s2 : sqrt_value_pass 0x80000000 0x00000000 = true := by decide
  refine ⟨by decide, by decide, by decide, by decide, d1, d2, s1, s2, ?_, ?_, ?_, ?_⟩
  · simp [div_overall_pass, d1]
  · simp [div_overall_pass, d2]
  · simp [sqrt_overall_pass, s1]
  · simp [sqrt_overall_pass, s2]

/-- Claim C6: whenever both result bit patterns encode a NaN (any payload,
signalling bit, or sign), the divider's ULP stays `0` and the value verdicts
of both testbenches pass, exempting the pair from the numeric comparison. -/
theorem nan_nan_value_equiv (rtl ref dut_flags math_flags : Nat)
    (h1 : isNaN32 rtl = true) (h2 : isNaN32 ref = true) :
    div_ulp_diff rtl ref = 0 ∧
    div_result_match rtl ref = true ∧
    sqrt_value_pass rtl ref = true ∧
    sqrt_corner_pass rtl ref dut_flags math_flags = true := by
  refine ⟨?_, ?_, ?_, ?_⟩
  · simp [div_ulp_diff, h1, h2]
  · simp [div_result_match, h1, h2]
  · simp [sqrt_value_pass, h1, h2]
  · simp [sqrt_corner_pass, h1, h2]

/-- Witness for C6 at a quiet NaN and a negative NaN with payload. -/
theorem nan_nan_value_equiv_witness :
    isNaN32 0x7fc00000 = true ∧ isNaN32 0xffa00001 = true ∧
    (div_ulp_diff 0x7fc00000 0xffa00001 = 0 ∧
     div_result_match 0x7fc00000 0xffa00001 = true ∧
     sqrt_value_pass 0x7fc00000 0xffa00001 = true ∧
     sqrt_corner_pass 0x7fc00000 0xffa00001 0x10 0x10 = true) :=
  ⟨by decide, by decide,
   nan_nan_value_equiv 0x7fc00000 0xffa00001 0x10 0x10 (by decide) (by decide)⟩

/-- Counterexample to C1: a sqrt random-phase vector whose comparison is not
an overall pass (RTL `1.0` vs reference `1.0 + 1ulp`, equal flags) does not
terminate the sqrt testbench: its run still ends with exit status `0`. -/
theorem sqrt_failing_vector_exits_zero :
    sqrt_overall_pass 0x3f800000 0x3f800001 0x01 0x01 = false ∧
    run_log_only [sqrt_overall_pass 0x3f800000 0x3f800001 0x01 0x01] = 0 :=
  ⟨by decide, by decide⟩

/-- Claim C1 (amended): in the divider testbench a failing comparison
terminates the run immediately with exit status `1`, and the exit status is
`0` exactly when every executed vector passed; the sqrt testbench never
aborts on a failing comparison and always exits with status `0`. -/
theorem exit_code_policies (recs : List (Nat × Nat × Nat × Nat))
    (pre post : List Bool) (hpre : ∀ p ∈ pre, p = true) :
    run_fail_fast (pre ++ false :: post) = 1 ∧
    (run_fail_fast (recs.map fun v => div_overall_pass v.1 v.2.1 v.2.2.1 v.2.2.2) = 0 ↔
      ∀ v ∈ recs, div_overall_pass v.1 v.2.1 v.2.2.1 v.2.2.2 = true) ∧
    run_log_only (recs.map fun v => sqrt_overall_pass v.1 v.2.1 v.2.2.1 v.2.2.2) = 0 := by
  refine ⟨run_fail_fast_append_false pre post hpre, ?_, run_log_only_eq_zero _⟩
  rw [run_fail_fast_eq_zero_iff]
  constructor
  · intro h v hv
    exact h _ (List.mem_map_of_mem _ hv)
  · intro h p hp
    obtain ⟨v, hv, rfl⟩ := List.mem_map.mp hp
    exact h v hv

/-- Witness for the amended C1 at a one-vector passing run and a run with a
failure in second position. -/
theorem exit_code_policies_witness :
    (∀ p ∈ ([true] : List Bool), p = true) ∧
    (run_fail_fast ([true] ++ false :: [true]) = 1 ∧
     (run_fail_fast (([((0x3f800000 : Nat), (0x3f800000 : Nat), (0x01 : Nat), (0x01 : Nat))]).map
         fun v => div_overall_pass v.1 v.2.1 v.2.2.1 v.2.2.2) = 0 ↔
       ∀ v ∈ [((0x3f800000 : Nat), (0x3f800000 : Nat), (0x01 : Nat), (0x01 : Nat))],
         div_overall_pass v.1 v.2.1 v.2.2.1 v.2.2.2 = true) ∧
     run_log_only (([((0x3f800000 : Nat), (0x3f800000 : Nat), (0x01 : Nat), (0x01 : Nat))]).map
         fun v => sqrt_overall_pass v.1 v.2.1 v.2.2.1 v.2.2.2) = 0) :=
  ⟨by decide,
   exit_code_policies [(0x3f800000, 0x3f800000, 0x01, 0x01)] [true] [true] (by decide)⟩

/-- Counterexample to C2: in the sqrt systematic subnormal sweep — whose
first operand is `0x00000001` — a vector whose outputs fail the value
equivalence policy (RTL `+0` vs reference `0x20000000`) but carry equal flags
is not reported by the sweep's check, which compares flags only. -/
theorem sqrt_sweep_value_mismatch_unreported :
    sqrt_subnorm_sweep.head? = some 0x00000001 ∧
    sqrt_value_pass 0x00000000 0x20000000 = false ∧
    sqrt_overall_pass 0x00000000 0x20000000 0x02 0x02 = false ∧
    sqrt_sys_fail_report 0x02 0x02 = false := by
  refine ⟨rfl, by decide, by decide, by decide⟩

/-- Claim C2 (amended): in the divider testbench every phase feeds each
vector through the full oracle — the run exits `0` exactly when every vector
satisfies both the value policy and exact flag equality; in the sqrt
testbench the random phase applies both policies, the corner phase's verdict
applies only the value policy, the systematic subnormal sweep checks only
exact flag equality, and the near-one sweep applies no comparison at all. -/
theorem oracle_application_by_phase (recs : List (Nat × Nat × Nat × Nat))
    (dut_flags math_flags out_u math_u : Nat) :
    (run_fail_fast (recs.map fun v => div_overall_pass v.1 v.2.1 v.2.2.1 v.2.2.2) = 0 ↔
      ∀ v ∈ recs, div_result_match v.1 v.2.1 = true ∧ v.2.2.1 = v.2.2.2) ∧
    (sqrt_sys_fail_report dut_flags math_flags = false ↔ dut_flags = math_flags) ∧
    sqrt_corner_pass out_u math_u dut_flags math_flags = sqrt_value_pass out_u math_u ∧
    sqrt_overall_pass out_u math_u dut_flags math_flags
      = (sqrt_value_pass out_u math_u && (dut_flags == math_flags)) := by
  refine ⟨?_, ?_, rfl, rfl⟩
  · rw [run_fail_fast_eq_zero_iff]
    constructor
    · intro h v hv
      have hv' := h _ (List.mem_map_of_mem _ hv)
      rw [div_overall_pass, Bool.and_eq_true, beq_iff_eq] at hv'
      exact hv'
    · intro h p hp
      obtain ⟨v, hv, rfl⟩ := List.mem_map.mp hp
      rw [div_overall_pass, Bool.and_eq_true, beq_iff_eq]
      exact h v hv
  · rw [sqrt_sys_fail_report]
    simp

/-- Witness for the amended C2 at a one-vector run with matching outputs. -/
theorem oracle_application_by_phase_witness :
    (run_fail_fast (([((0x40000000 : Nat), (0x40000000 : Nat), (0x00 : Nat), (0x00 : Nat))]).map
        fun v => div_overall_pass v.1 v.2.1 v.2.2.1 v.2.2.2) = 0 ↔
      ∀ v ∈ [((0x40000000 : Nat), (0x40000000 : Nat), (0x00 : Nat), (0x00 : Nat))],
        div_result_match v.1 v.2.1 = true ∧ v.2.2.1 = v.2.2.2) ∧
    (sqrt_sys_fail_report 0x02 0x03 = false ↔ (0x02 : Nat) = 0x03) ∧
    sqrt_corner_pass 0x40000000 0x40000000 0x02 0x03
      = sqrt_value_pass 0x40000000 0x40000000 ∧
    sqrt_overall_pass 0x40000000 0x40000000 0x02 0x03
      = (sqrt_value_pass 0x40000000 0x40000000 && ((0x02 : Nat) == 0x03)) :=
  oracle_application_by_phase [(0x40000000, 0x40000000, 0x00, 0x00)] 0x02 0x03
    0x40000000 0x40000000

/-- Counterexample to C3: the sqrt corner-case verdict `pass_cc` is true for
bit-identical results even when the RTL flags (`0x10`) differ from the
reference flags (`0x00`): the corner-case phase verdict does not require
`flag_pass`, unlike the full oracle on the same outputs. -/
theorem sqrt_corner_verdict_ignores_flags :
    sqrt_corner_pass 0x40000000 0x40000000 0x10 0x00 = true ∧
    ((0x10 : Nat) == 0x00) = false ∧
    sqrt_overall_pass 0x40000000 0x40000000 0x10 0x00 = false := by
  refine ⟨by decide, by decide, by decide⟩

/-- Claim C3 (amended): the divider's verdict (all phases) and the sqrt
random-phase verdict are `value_pass && flag_pass` with
`value_pass = (both NaN) || (ulp_diff == 0)` and `flag_pass` exact equality
of the packed 5-bit flag sets (equality of packings coincides with flagwise
equality); the sqrt corner-case verdict consists of the value comparison
only and is independent of the flag values. -/
theorem per_phase_verdict_formulas (rtl math rtl_flags math_flags df2 mf2 : Nat)
    (i1 z1 o1 u1 x1 i2 z2 o2 u2 x2 : Bool) :
    div_overall_pass rtl math rtl_flags math_flags
      = (((isNaN32 rtl && isNaN32 math) || (div_ulp_diff rtl math == 0)) &&
          (rtl_flags == math_flags)) ∧
    sqrt_overall_pass rtl math rtl_flags math_flags
      = (((isNaN32 math && isNaN32 rtl) || (sqrt_ulp_diff rtl math == 0)) &&
          (rtl_flags == math_flags)) ∧
    sqrt_corner_pass rtl math rtl_flags math_flags
      = ((isNaN32 math && isNaN32 rtl) || (sqrt_ulp_diff rtl math == 0)) ∧
    sqrt_corner_pass rtl math rtl_flags math_flags = sqrt_corner_pass rtl math df2 mf2 ∧
    (pack_flags i1 z1 o1 u1 x1 == pack_flags i2 z2 o2 u2 x2)
      = (i1 == i2 && z1 == z2 && o1 == o2 && u1 == u2 && x1 == x2) := by
  have hpack : ∀ (a1 b1 c1 d1 e1 a2 b2 c2 d2 e2 : Bool),
      (pack_flags a1 b1 c1 d1 e1 == pack_flags a2 b2 c2 d2 e2)
        = (a1 == a2 && b1 == b2 && c1 == c2 && d1 == d2 && e1 == e2) := by decide
  exact ⟨rfl, rfl, rfl, rfl, hpack i1 z1 o1 u1 x1 i2 z2 o2 u2 x2⟩

/-- Claim C7: in both stratified samplers, for every draw `d` below the total
weight, the walk selects exactly the first region in table order whose
cumulative weight exceeds `d`: the selected index `i` satisfies
`cum_weight i ≤ d < cum_weight (i+1)`, no earlier region's cumulative weight
exceeds `d`, and any index with that property equals `i`. -/
theorem stratified_first_region (d : Nat) :
    (d < total_weight div_regions →
      ∃ i, ∃ hi : i < div_regions.length,
        select_region div_regions d 0 = some (div_regions.get ⟨i, hi⟩) ∧
        cum_weight div_regions i ≤ d ∧ d < cum_weight div_regions (i + 1) ∧
        (∀ j, d < cum_weight div_regions (j + 1) → i ≤ j) ∧
        (∀ j, cum_weight div_regions j ≤ d →
          d < cum_weight div_regions (j + 1) → j = i)) ∧
    (d < total_weight sqrt_regions →
      ∃ i, ∃ hi : i < sqrt_regions.length,
        select_region sqrt_regions d 0 = some (sqrt_regions.get ⟨i, hi⟩) ∧
        cum_weight sqrt_regions i ≤ d ∧ d < cum_weight sqrt_regions (i + 1) ∧
        (∀ j, d < cum_weight sqrt_regions (j + 1) → i ≤ j) ∧
        (∀ j, cum_weight sqrt_regions j ≤ d →
          d < cum_weight sqrt_regions (j + 1) → j = i)) := by
  constructor
  · intro h
    refine select_region_first div_regions d ?_
    have e1 : sum_weights div_regions = 136 := by decide
    have e2 : total_weight div_regions = 136 := by decide
    omega
  · intro h
    refine select_region_first sqrt_regions d ?_
    have e1 : sum_weights sqrt_regions = 100 := by decide
    have e2 : total_weight sqrt_regions = 100 := by decide
    omega

/-- Witness for C7 at draw `d = 20`. -/
theorem stratified_first_region_witness :
    ((20 : Nat) < total_weight div_regions ∧
      ∃ i, ∃ hi : i < div_regions.length,
        select_region div_regions 20 0 = some (div_regions.get ⟨i, hi⟩) ∧
        cum_weight div_regions i ≤ 20 ∧ 20 < cum_weight div_regions (i + 1) ∧
        (∀ j, 20 < cum_weight div_regions (j + 1) → i ≤ j) ∧
        (∀ j, cum_weight div_regions j ≤ 20 →
          20 < cum_weight div_regions (j + 1) → j = i)) ∧
    ((20 : Nat) < total_weight sqrt_regions ∧
      ∃ i, ∃ hi : i < sqrt_regions.length,
        select_region sqrt_regions 20 0 = some (sqrt_regions.get ⟨i, hi⟩) ∧
        cum_weight sqrt_regions i ≤ 20 ∧ 20 < cum_weight sqrt_regions (i + 1) ∧
        (∀ j, 20 < cum_weight sqrt_regions (j + 1) → i ≤ j) ∧
        (∀ j, cum_weight sqrt_regions j ≤ 20 →
          20 < cum_weight sqrt_regions (j + 1) → j = i)) :=
  ⟨⟨by decide, (stratified_first_region 20).1 (by decide)⟩,
   ⟨by decide, (stratified_first_region 20).2 (by decide)⟩⟩

/-- Claim C8: both testbenches' systematic subnormal sweep evaluates exactly
the operand patterns `0x00000001 + k * 0x00001111` for the `k` whose value
stays within `0x007fffff` — precisely `k < 1921` — in increasing order, and
the divider pairs each swept value with the five fixed divisors in order. -/
theorem systematic_sweep_vectors :
    sqrt_subnorm_sweep = (List.range 1921).map (fun k => 0x00000001 + k * 0x00001111) ∧
    div_subnorm_vectors
      = ((List.range 1921).map fun k => 0x00000001 + k * 0x00001111).flatMap
          (fun s => [0x3f800000, 0x40000000, 0x3f000000, 0x41200000, 0x3e800000].map
            fun d => (s, d)) ∧
    (∀ k, 0x00000001 + k * 0x00001111 ≤ 0x007fffff ↔ k < 1921) ∧
    List.Pairwise (· < ·) sqrt_subnorm_sweep := by
  have hk : ∀ k : Nat, 0x00000001 + k * 0x00001111 ≤ 0x007fffff ↔ k < 1921 := by
    intro k
    omega
  have hsweep : sqrt_subnorm_sweep
      = (List.range 1921).map fun k => 0x00000001 + k * 0x00001111 := by
    refine subnorm_sweep_aux_eq_prog 1921 0x00800000 0x00000001 (by omega) (by omega) ?_
    intro j hj
    exact (hk j).mpr hj
  refine ⟨hsweep, ?_, hk, ?_⟩
  · have h1 := div_subnorm_vectors_aux_eq 0x00800000 0x00000001
    rw [div_subnorm_vectors, h1]
    rw [show subnorm_sweep_aux 0x00800000 0x00000001
        = (List.range 1921).map fun k => 0x00000001 + k * 0x00001111 from hsweep]
    simp only [div_divisors]
  · rw [hsweep]
    exact pairwise_lt_prog 0x00000001 0x00001111 1921 (by omega)

/-- Claim C9: for every region of the divider's table (all have
`start < end`), the first stratified operand is `start + g % (end - start)`,
always in `[start, end - 1]` — in particular never `0x7fffffff` or
`0xffffffff` — while a same-region second operand lies in `[start, end]`
inclusive. -/
theorem div_region_operand_bounds (r : TestRegion) (g : Nat)
    (hr : r ∈ div_regions) (hg : g < 2 ^ 32) :
    (r.start < r.stop →
      r.start ≤ div_gen_a r g ∧ div_gen_a r g ≤ r.stop - 1) ∧
    div_gen_a r g ≠ 0x7fffffff ∧
    div_gen_a r g ≠ 0xffffffff ∧
    (r.start < r.stop →
      r.start ≤ div_gen_b_same_region r g ∧ div_gen_b_same_region r g ≤ r.stop) := by
  fin_cases hr <;>
    simp [div_gen_a, div_gen_b_same_region] <;>
    omega

/-- Witness for C9 at the subnormal region and draw `g = 12345`. -/
theorem div_region_operand_bounds_witness :
    (⟨0x00000000, 0x00800000, "subnormals", 10⟩ : TestRegion) ∈ div_regions ∧
    (12345 : Nat) < 2 ^ 32 ∧
    (((⟨0x00000000, 0x00800000, "subnormals", 10⟩ : TestRegion).start
        < (⟨0x00000000, 0x00800000, "subnormals", 10⟩ : TestRegion).stop →
      (⟨0x00000000, 0x00800000, "subnormals", 10⟩ : TestRegion).start
        ≤ div_gen_a ⟨0x00000000, 0x00800000, "subnormals", 10⟩ 12345 ∧
      div_gen_a ⟨0x00000000, 0x00800000, "subnormals", 10⟩ 12345
        ≤ (⟨0x00000000, 0x00800000, "subnormals", 10⟩ : TestRegion).stop - 1) ∧
    div_gen_a ⟨0x00000000, 0x00800000, "subnormals", 10⟩ 12345 ≠ 0x7fffffff ∧
    div_gen_a ⟨0x00000000, 0x00800000, "subnormals", 10⟩ 12345 ≠ 0xffffffff ∧
    ((⟨0x00000000, 0x00800000, "subnormals", 10⟩ : TestRegion).start
        < (⟨0x00000000, 0x00800000, "subnormals", 10⟩ : TestRegion).stop →
      (⟨0x00000000, 0x00800000, "subnormals", 10⟩ : TestRegion).start
        ≤ div_gen_b_same_region ⟨0x00000000, 0x00800000, "subnormals", 10⟩ 12345 ∧
      div_gen_b_same_region ⟨0x00000000, 0x00800000, "subnormals", 10⟩ 12345
        ≤ (⟨0x00000000, 0x00800000, "subnormals", 10⟩ : TestRegion).stop)) :=
  ⟨by simp [div_regions], by decide,
   div_region_operand_bounds ⟨0x00000000, 0x00800000, "subnormals", 10⟩ 12345
     (by simp [div_regions]) (by decide)⟩

/-- Claim C10: for every draw below the total weight the region walk of both
samplers assigns a region before the list is exhausted; hence the divider's
unchecked dereference of the selected-region pointer is never null, and the
sqrt fallback `if (!selected_region) selected_region = &regions[0]` is
unreachable — the selected region is always the walk's own result. -/
theorem region_walk_never_null (d : Nat) :
    (d < total_weight div_regions → (select_region div_regions d 0).isSome = true) ∧
    (d < total_weight sqrt_regions →
      select_region sqrt_regions d 0 = some (sqrt_selected_region d)) := by
  constructor
  · intro h
    have hb : d < sum_weights div_regions := by
      have e1 : sum_weights div_regions = 136 := by decide
      have e2 : total_weight div_regions = 136 := by decide
      omega
    obtain ⟨i, hi, hsel, -, -⟩ := select_region_go div_regions 0 d (Nat.zero_le d) (by omega)
    rw [hsel]
    rfl
  · intro h
    have hb : d < sum_weights sqrt_regions := by
      have e1 : sum_weights sqrt_regions = 100 := by decide
      have e2 : total_weight sqrt_regions = 100 := by decide
      omega
    obtain ⟨i, hi, hsel, -, -⟩ := select_region_go sqrt_regions 0 d (Nat.zero_le d) (by omega)
    rw [sqrt_selected_region, hsel]

/-- Witness for C10 at draw `d = 99`. -/
theorem region_walk_never_null_witness :
    (99 : Nat) < total_weight div_regions ∧
    (select_region div_regions 99 0).isSome = true ∧
    (99 : Nat) < total_weight sqrt_regions ∧
    select_region sqrt_regions 99 0 = some (sqrt_selected_region 99) :=
  ⟨by decide, (region_walk_never_null 99).1 (by decide),
   by decide, (region_walk_never_null 99).2 (by decide)⟩

end FP32TB
